import Mathlib

/- Shallow embedding of the invoice-processing pipeline
   (process/process_pdf_with_headers.py and process/process_excel.py),
   together with theorems settling the spec claims about it. -/

deriving instance DecidableEq for Except

namespace InvoiceProc

/-- Line item of an invoice (pydantic model InvoiceItem). -/
structure InvoiceItem where
  product_name : String
  batch_number : String
  expiry_date : String
  mrp : String
  quantity : Int
  deriving DecidableEq

/-- Aggregate result of a run (pydantic model InvoiceData). -/
structure InvoiceData where
  headers : List String
  items : List InvoiceItem
  deriving DecidableEq

/-- Per-page container (dataclass PageData). -/
structure PageData where
  idx : Nat
  image_path : String
  headers : List String
  items : List InvoiceItem
  deriving DecidableEq

/-- Abstract behaviour of the external LLM client on one page.
`saveErr`: save_image raises before any API call;
`header`: outcome of the extract_headers API call (error = exception raised,
ok none = response.parsed is None, ok (some hs) = parsed header list);
`uploadErr`: client.files.upload raises before generate_content;
`items`: outcome of the generate_content items call (error = exception,
ok none = response.parsed is None or has no items, ok (some l) = parsed items). -/
structure PageBehavior where
  saveErr : Bool
  header : Except Unit (Option (List String))
  uploadErr : Bool
  items : Except Unit (Option (List InvoiceItem))
  deriving DecidableEq

/-- Default behaviour used only to totalise list lookups (never reached on
in-range indices). -/
def defaultBehavior : PageBehavior :=
  ⟨false, Except.ok none, false, Except.ok none⟩

/-- Behaviour of page `i` of the document. -/
def behOf (pages : List PageBehavior) (i : Nat) : PageBehavior :=
  pages.getD i defaultBehavior

/-- Observable effects of the pipeline, in dispatch order.
`headerCall` is the extract_headers API call (page 0 only);
`extractCall page ctx` is the generate_content items call for `page`, where
`ctx` is the header context embedded in the prompt (none for page 0, whose
prompt carries no header list);
`rateWait` is a RateLimiter.wait_if_needed invocation (Excel path only);
`chunkCall i` is the generate_content call for Excel chunk `i`;
`batchBarrier w` marks the creation of a ThreadPoolExecutor with `w` workers
at the start of a batch (the barrier between consecutive batches). -/
inductive Event where
  | headerCall : Event
  | extractCall (page : Nat) (ctx : Option (List String)) : Event
  | rateWait : Event
  | chunkCall (chunk : Nat) : Event
  | batchBarrier (workers : Nat) : Event
  deriving DecidableEq

/-- Name of the temporary image file written by save_image for page `idx`
(the source writes temp_dir / f"page_{idx+1}.jpg"). -/
def imagePath (idx : Nat) : String :=
  "page_" ++ toString (idx + 1) ++ ".jpg"

/-- Embedding of the glob pattern "*.jpg" used by the final cleanup pass:
the file name ends with ".jpg". -/
def isJpg (f : String) : Bool :=
  decide (f.data.reverse.take 4 = ['g', 'p', 'j', '.'])

/-- Final cleanup pass: every file matching "*.jpg" in the temp directory is
unlinked (the source's finally block). -/
def cleanup (files : List String) : List String :=
  files.filter (fun f => !(isJpg f))

/-- Embedding of process_single_page.  Input: page index, the shared header
list passed by the caller, and the client behaviour on this page.  Output:
the PageData returned (the function catches every exception and returns a
PageData in all cases), the API-call events it performs in order, and the
temporary files it creates. -/
def process_single_page (idx : Nat) (headersIn : List String)
    (b : PageBehavior) : PageData × List Event × List String :=
  if b.saveErr then
    (⟨idx, "", headersIn, []⟩, [], [])
  else
    let path := imagePath idx
    if idx = 0 then
      match b.header with
      | Except.error _ => (⟨idx, "", headersIn, []⟩, [Event.headerCall], [path])
      | Except.ok parsed =>
        let headers := parsed.getD []
        if b.uploadErr then
          (⟨idx, "", headers, []⟩, [Event.headerCall], [path])
        else
          match b.items with
          | Except.error _ =>
            (⟨idx, "", headers, []⟩,
              [Event.headerCall, Event.extractCall idx none], [path])
          | Except.ok ip =>
            (⟨idx, path, headers, ip.getD []⟩,
              [Event.headerCall, Event.extractCall idx none], [path])
    else
      if b.uploadErr then
        (⟨idx, "", headersIn, []⟩, [], [path])
      else
        match b.items with
        | Except.error _ =>
          (⟨idx, "", headersIn, []⟩,
            [Event.extractCall idx (some headersIn)], [path])
        | Except.ok ip =>
          (⟨idx, path, headersIn, ip.getD []⟩,
            [Event.extractCall idx (some headersIn)], [path])

/-- PageData produced for page 0 (called with the initial empty header list,
exactly as in process_pdf_with_headers). -/
def page0 (b0 : PageBehavior) : PageData :=
  (process_single_page 0 [] b0).1

/-- Canonical header list of a run: the headers of page 0's PageData. -/
def runHeaders (b0 : PageBehavior) : List String :=
  (page0 b0).headers

/-- Items contributed by page `idx` with behaviour `b` (independent of the
header context passed in). -/
def pageItemsOf (idx : Nat) (b : PageBehavior) : List InvoiceItem :=
  if b.saveErr then []
  else if idx = 0 then
    match b.header with
    | Except.error _ => []
    | Except.ok _ =>
      if b.uploadErr then []
      else
        match b.items with
        | Except.error _ => []
        | Except.ok ip => ip.getD []
  else
    if b.uploadErr then []
    else
      match b.items with
      | Except.error _ => []
      | Except.ok ip => ip.getD []

/-- Predicate: the extraction of page `idx` with behaviour `b` fails
(an exception is raised somewhere, or the model output is unparseable). -/
def pageFailed (idx : Nat) (b : PageBehavior) : Bool :=
  b.saveErr || b.uploadErr ||
    (decide (idx = 0) && decide (b.header = Except.error ())) ||
    b.items = Except.error () || b.items = Except.ok none

/-- Batches of the remaining pages: the source iterates
`for i in range(0, len(remaining_pages), batch_size)` and slices
`remaining_pages[i : i + batch_size]`. -/
def batchList (bs : Nat) (l : List Nat) : List (List Nat) :=
  (List.range ((l.length + bs - 1) / bs)).map
    (fun k => (l.drop (k * bs)).take bs)

/-- Events of one batch: executor creation with min(max_workers, len(batch))
workers, then the pages' API calls in dispatch order `d`. -/
def batchSegment (pages : List PageBehavior) (headers : List String)
    (mw : Nat) (d : List Nat) (b : List Nat) : List Event :=
  Event.batchBarrier (min mw b.length) ::
    (d.map (fun i => (process_single_page i headers (behOf pages i)).2.1)).flatten

/-- Items collected from one batch in completion order `c`
(as_completed order; all_items.extend appends each page's list whole). -/
def batchItems (pages : List PageBehavior) (headers : List String)
    (c : List Nat) : List InvoiceItem :=
  (c.map (fun i => (process_single_page i headers (behOf pages i)).1.items)).flatten

/-- Temporary files created by one batch. -/
def batchFiles (pages : List PageBehavior) (headers : List String)
    (d : List Nat) : List String :=
  (d.map (fun i => (process_single_page i headers (behOf pages i)).2.2)).flatten

/-- Errors that can escape process_pdf_with_headers:
`rasterError` = pdf2image.convert_from_path raised (fatal, before the try);
`indexError` = images[0] on an empty page list (inside the try);
`valueError` = range(..., 0) or ThreadPoolExecutor(max_workers=0) raised. -/
inductive PipeErr where
  | rasterError : PipeErr
  | indexError : PipeErr
  | valueError : PipeErr
  deriving DecidableEq

/-- Observable outcome of one pipeline run: the returned value or escaped
exception, the API-call trace, and the final temp-directory contents. -/
structure RunResult where
  result : Except PipeErr InvoiceData
  events : List Event
  files : List String
  deriving DecidableEq

/-- Batch loop of process_pdf_with_headers over a list of batches.
`σd` linearises the dispatch interleaving of a batch, `σc` its as_completed
collection order; both are permutations of the batch.  Returns collected
items, events, created files, and whether a ValueError escaped
(ThreadPoolExecutor with min(max_workers, len(batch)) = 0 workers). -/
def runBatches (pages : List PageBehavior) (headers : List String) (mw : Nat)
    (σd σc : List Nat → List Nat) :
    List (List Nat) → List InvoiceItem × List Event × List String × Bool
  | [] => ([], [], [], false)
  | b :: rest =>
    if min mw b.length = 0 then ([], [], [], true)
    else
      (batchItems pages headers (σc b)
          ++ (runBatches pages headers mw σd σc rest).1,
       batchSegment pages headers mw (σd b) b
          ++ (runBatches pages headers mw σd σc rest).2.1,
       batchFiles pages headers (σd b)
          ++ (runBatches pages headers mw σd σc rest).2.2.1,
       (runBatches pages headers mw σd σc rest).2.2.2)

/-- Embedding of process_pdf_with_headers.  `raster` is the outcome of
pdf2image.convert_from_path (error = rasterization failure, which happens
before the temp directory and the try/finally are set up); `σd`/`σc` resolve
the scheduling nondeterminism inside each batch; `initFiles` are the files
already present in the shared temp directory. -/
def process_pdf_with_headers (raster : Except Unit (List PageBehavior))
    (mw bs : Nat) (σd σc : List Nat → List Nat)
    (initFiles : List String) : RunResult :=
  match raster with
  | Except.error _ => ⟨Except.error PipeErr.rasterError, [], initFiles⟩
  | Except.ok [] =>
    ⟨Except.error PipeErr.indexError, [], cleanup initFiles⟩
  | Except.ok (b0 :: rest) =>
    let fp := process_single_page 0 [] b0
    let headers := fp.1.headers
    if bs = 0 then
      ⟨Except.error PipeErr.valueError, fp.2.1, cleanup (initFiles ++ fp.2.2)⟩
    else
      let remaining := List.range' 1 rest.length
      let r := runBatches (b0 :: rest) headers mw σd σc (batchList bs remaining)
      if r.2.2.2 then
        ⟨Except.error PipeErr.valueError, fp.2.1 ++ r.2.1,
          cleanup (initFiles ++ fp.2.2 ++ r.2.2.1)⟩
      else
        ⟨Except.ok ⟨headers, fp.1.items ++ r.1⟩, fp.2.1 ++ r.2.1,
          cleanup (initFiles ++ fp.2.2 ++ r.2.2.1)⟩

/-- Embedding of RateLimiter.wait_if_needed with the list of recorded call
timestamps as explicit state and `now` the value of time.time() on entry.
Error = the IndexError of self.calls[0] on an empty filtered list (only
reachable when max_calls_per_minute = 0).  On success, returns the new
timestamp list and the time slept; the timestamp recorded after a sleep of
`w` seconds is `now + w`. -/
def wait_if_needed (maxCalls : Nat) (calls : List ℚ) (now : ℚ) :
    Except Unit (List ℚ × ℚ) :=
  let inWindow := calls.filter (fun t => decide (now - t < 60))
  if maxCalls ≤ inWindow.length then
    match inWindow with
    | [] => Except.error ()
    | oldest :: _ =>
      let sleepTime := 60 - (now - oldest)
      let waited := if 0 < sleepTime then sleepTime else 0
      Except.ok (inWindow ++ [now + waited], waited)
  else
    Except.ok (inWindow ++ [now], 0)

/-- Embedding of process_chunk (Excel path).  `apiResult` abstracts the
generate_content call plus the regex/JSON post-processing: error = the call
raised, ok none = no JSON array found or JSONDecodeError, ok (some l) = the
parsed item list.  Returns the extracted items and the effect trace: the
rate limiter is consulted immediately before the API call. -/
def process_chunk {α : Type} (i : Nat)
    (apiResult : Except Unit (Option (List α))) : List α × List Event :=
  match apiResult with
  | Except.error _ => ([], [Event.rateWait, Event.chunkCall i])
  | Except.ok parsed => (parsed.getD [], [Event.rateWait, Event.chunkCall i])

/-- Embedding of prepare_chunks: the dataframe is a list of rows; chunk `i`
is (i, df.iloc[i*cs : min((i+1)*cs, len)], i*cs, min((i+1)*cs, len)). -/
def prepare_chunks {α : Type} (df : List α) (chunk_size : Nat) :
    List (Nat × List α × Nat × Nat) :=
  (List.range ((df.length + chunk_size - 1) / chunk_size)).map
    (fun i =>
      (i,
       (df.drop (i * chunk_size)).take
         (min ((i + 1) * chunk_size) df.length - i * chunk_size),
       i * chunk_size,
       min ((i + 1) * chunk_size) df.length))

/-! Generic arithmetic and list lemmas used by the claim proofs. -/

theorem range'_drop (m : Nat) :
    ∀ (s n : Nat), (List.range' s n).drop m = List.range' (s + m) (n - m) := by
  induction m with
  | zero => intro s n; simp
  | succ k ih =>
    intro s n
    cases n with
    | zero => simp
    | succ n =>
      have h1 : n + 1 - (k + 1) = n - k := by omega
      have h2 : s + 1 + k = s + (k + 1) := by omega
      rw [List.range'_succ]
      simp only [List.drop_succ_cons]
      rw [ih (s + 1) n, h1, h2]

theorem range'_take (m : Nat) :
    ∀ (s n : Nat), (List.range' s n).take m = List.range' s (min m n) := by
  induction m with
  | zero => intro s n; simp
  | succ k ih =>
    intro s n
    cases n with
    | zero => simp
    | succ n =>
      have h1 : min (k + 1) (n + 1) = min k n + 1 := by omega
      rw [List.range'_succ, List.take_succ_cons, ih (s + 1) n, h1, List.range'_succ]

theorem ceil_le_iff {a b m : Nat} (hb : 0 < b) :
    (a + b - 1) / b ≤ m ↔ a ≤ m * b := by
  rw [Nat.div_le_iff_le_mul_add_pred hb, Nat.mul_comm m b]
  omega

theorem lt_ceil_mul {a b k : Nat} (hb : 0 < b) (hk : k < (a + b - 1) / b) :
    k * b < a := by
  by_contra h
  have : (a + b - 1) / b ≤ k := (ceil_le_iff hb).mpr (by omega)
  omega

theorem ceil_mul_ge {a b : Nat} (hb : 0 < b) : a ≤ ((a + b - 1) / b) * b :=
  (ceil_le_iff hb).mp le_rfl

theorem flatten_chunks_take {α : Type} (l : List α) (cs : Nat) :
    ∀ n, ((List.range n).map (fun k => (l.drop (k * cs)).take cs)).flatten
      = l.take (n * cs) := by
  intro n
  induction n with
  | zero => simp
  | succ k ih =>
    rw [List.range_succ, List.map_append, List.flatten_append, ih]
    simp only [List.map_cons, List.map_nil, List.flatten_cons, List.flatten_nil,
      List.append_nil]
    rw [Nat.succ_mul, List.take_add]

theorem flatten_chunks {α : Type} (l : List α) {cs : Nat} (hcs : 0 < cs) :
    ((List.range ((l.length + cs - 1) / cs)).map
      (fun k => (l.drop (k * cs)).take cs)).flatten = l := by
  rw [flatten_chunks_take]
  exact List.take_of_length_le (ceil_mul_ge hcs)

theorem take_min_chunk {α : Type} (l : List α) (cs i : Nat) :
    (l.drop (i * cs)).take (min ((i + 1) * cs) l.length - i * cs)
      = (l.drop (i * cs)).take cs := by
  rcases le_or_lt ((i + 1) * cs) l.length with h | h
  · rw [min_eq_left h]
    congr 1
    have hmul : (i + 1) * cs = i * cs + cs := by rw [Nat.add_mul, Nat.one_mul]
    omega
  · rw [min_eq_right (le_of_lt h)]
    have hlen : (l.drop (i * cs)).length = l.length - i * cs := by simp
    have hmul : (i + 1) * cs = i * cs + cs := by rw [Nat.add_mul, Nat.one_mul]
    rw [List.take_of_length_le, List.take_of_length_le]
    · rw [hlen]
      omega
    · rw [hlen]

/-! Case lemmas about process_single_page. -/

theorem psp_items (idx : Nat) (hs : List String) (b : PageBehavior) :
    (process_single_page idx hs b).1.items = pageItemsOf idx b := by
  rcases b with ⟨se, hd, ue, it⟩
  by_cases h0 : idx = 0 <;>
    cases se <;> cases ue <;> rcases hd with e | p <;> rcases it with e' | p' <;>
      simp [process_single_page, pageItemsOf, h0]

theorem psp_headers_pos (idx : Nat) (hs : List String) (b : PageBehavior)
    (h0 : idx ≠ 0) : (process_single_page idx hs b).1.headers = hs := by
  rcases b with ⟨se, hd, ue, it⟩
  cases se <;> cases ue <;> rcases hd with e | p <;> rcases it with e' | p' <;>
    simp [process_single_page, h0]

theorem pageItemsOf_of_failed (idx : Nat) (b : PageBehavior)
    (h : pageFailed idx b = true) : pageItemsOf idx b = [] := by
  rcases b with ⟨se, hd, ue, it⟩
  simp only [pageFailed, Bool.or_eq_true, Bool.and_eq_true, decide_eq_true_eq] at h
  by_cases h0 : idx = 0 <;>
    cases se <;> cases ue <;> rcases hd with e | p <;> rcases it with e' | p' <;>
      simp_all [pageItemsOf]

theorem runHeaders_of_ok (b : PageBehavior) (hs : List String)
    (h1 : b.saveErr = false) (h2 : b.header = Except.ok (some hs)) :
    runHeaders b = hs := by
  rcases b with ⟨se, hd, ue, it⟩
  cases h2
  subst h1
  cases ue <;> rcases it with e' | p' <;>
    simp [runHeaders, page0, process_single_page]

theorem runHeaders_of_failed (b : PageBehavior)
    (h : b.saveErr = true ∨ b.header = Except.error () ∨
      b.header = Except.ok none) : runHeaders b = [] := by
  rcases b with ⟨se, hd, ue, it⟩
  cases se
  · rcases hd with e | p
    · cases ue <;> rcases it with e' | p' <;>
        simp [runHeaders, page0, process_single_page]
    · rcases p with _ | hs
      · cases ue <;> rcases it with e' | p' <;>
          simp [runHeaders, page0, process_single_page]
      · simp at h
  · cases ue <;> rcases it with e' | p' <;>
      simp [runHeaders, page0, process_single_page]

theorem mem_psp_events_pos {idx : Nat} {hs : List String} {b : PageBehavior}
    {e : Event} (h0 : idx ≠ 0)
    (he : e ∈ (process_single_page idx hs b).2.1) :
    e = Event.extractCall idx (some hs) := by
  rcases b with ⟨se, hd, ue, it⟩
  cases se <;> cases ue <;> rcases hd with e' | p <;> rcases it with e'' | p' <;>
    simp_all [process_single_page, h0]

theorem mem_psp_events_zero {hs : List String} {b : PageBehavior} {e : Event}
    (he : e ∈ (process_single_page 0 hs b).2.1) :
    e = Event.headerCall ∨ e = Event.extractCall 0 none := by
  rcases b with ⟨se, hd, ue, it⟩
  cases se <;> cases ue <;> rcases hd with e' | p <;> rcases it with e'' | p' <;>
    simp_all [process_single_page]

theorem psp_count_headerCall (hs : List String) (b : PageBehavior) :
    ((process_single_page 0 hs b).2.1).count Event.headerCall
      = if b.saveErr then 0 else 1 := by
  rcases b with ⟨se, hd, ue, it⟩
  cases se <;> cases ue <;> rcases hd with e' | p <;> rcases it with e'' | p' <;>
    simp [process_single_page, List.count_cons]

theorem mem_psp_files {idx : Nat} {hs : List String} {b : PageBehavior}
    {f : String} (hf : f ∈ (process_single_page idx hs b).2.2) :
    f = imagePath idx := by
  rcases b with ⟨se, hd, ue, it⟩
  by_cases h0 : idx = 0 <;>
    cases se <;> cases ue <;> rcases hd with e' | p <;> rcases it with e'' | p' <;>
      simp_all [process_single_page, h0]

/-! Lemmas about the cleanup pass. -/

theorem isJpg_imagePath (idx : Nat) : isJpg (imagePath idx) = true := by
  have h4 : (".jpg" : String).data = ['.', 'j', 'p', 'g'] := by decide
  unfold isJpg imagePath
  rw [String.data_append, String.data_append, h4]
  simp [List.reverse_append]

theorem cleanup_append (a b : List String) :
    cleanup (a ++ b) = cleanup a ++ cleanup b :=
  List.filter_append ..

theorem cleanup_jpg_nil {l : List String} (h : ∀ f ∈ l, isJpg f = true) :
    cleanup l = [] := by
  refine List.filter_eq_nil_iff.mpr ?_
  intro f hf
  simp [h f hf]

/-! Lemmas about the batch partition and the batch loop. -/

theorem batchList_length (bs : Nat) (l : List Nat) :
    (batchList bs l).length = (l.length + bs - 1) / bs := by
  simp [batchList]

theorem mem_batchList {bs : Nat} {l : List Nat} {b : List Nat}
    (hb : b ∈ batchList bs l) :
    ∃ k, k < (l.length + bs - 1) / bs ∧ b = (l.drop (k * bs)).take bs := by
  simp only [batchList, List.mem_map, List.mem_range] at hb
  rcases hb with ⟨k, hk, rfl⟩
  exact ⟨k, hk, rfl⟩

theorem mem_batchList_ne_nil {bs : Nat} (hbs : 0 < bs) {l : List Nat}
    {b : List Nat} (hb : b ∈ batchList bs l) : b ≠ [] := by
  rcases mem_batchList hb with ⟨k, hk, rfl⟩
  have hlt : k * bs < l.length := lt_ceil_mul hbs hk
  intro hnil
  rw [List.take_eq_nil_iff] at hnil
  rcases hnil with h | h
  · omega
  · rw [List.drop_eq_nil_iff] at h
    omega

theorem mem_of_mem_batchList {bs : Nat} {l : List Nat} {b : List Nat}
    (hb : b ∈ batchList bs l) {i : Nat} (hi : i ∈ b) : i ∈ l := by
  rcases mem_batchList hb with ⟨k, hk, rfl⟩
  exact List.drop_subset _ _ (List.take_subset _ _ hi)

theorem runBatches_eq (pages : List PageBehavior) (headers : List String)
    {mw : Nat} (hmw : 0 < mw) (σd σc : List Nat → List Nat) :
    ∀ bl : List (List Nat), (∀ b ∈ bl, b ≠ []) →
      runBatches pages headers mw σd σc bl =
        ((bl.map (fun b => batchItems pages headers (σc b))).flatten,
         (bl.map (fun b => batchSegment pages headers mw (σd b) b)).flatten,
         (bl.map (fun b => batchFiles pages headers (σd b))).flatten,
         false) := by
  intro bl
  induction bl with
  | nil => intro _; simp [runBatches]
  | cons b rest ih =>
    intro h
    have hb : b ≠ [] := h b (List.mem_cons_self ..)
    have hmin : ¬ (min mw b.length = 0) := by
      have : 0 < b.length := List.length_pos.mpr hb
      omega
    rw [runBatches, if_neg hmin, ih (fun x hx => h x (List.mem_cons_of_mem _ hx))]
    simp

/-- Outcome of a run on a non-empty page list with positive batch size and
worker count: the source returns normally; headers are page 0's, items are
page 0's followed by the batches' collections, the trace is page 0's calls
followed by the batch segments, and the cleanup pass filters every .jpg
file out of the temp directory. -/
theorem run_ok (b0 : PageBehavior) (rest : List PageBehavior)
    {mw bs : Nat} (hmw : 0 < mw) (hbs : 0 < bs)
    (σd σc : List Nat → List Nat) (initFiles : List String) :
    process_pdf_with_headers (Except.ok (b0 :: rest)) mw bs σd σc initFiles =
      ⟨Except.ok ⟨runHeaders b0,
          pageItemsOf 0 b0 ++
            ((batchList bs (List.range' 1 rest.length)).map
              (fun b => batchItems (b0 :: rest) (runHeaders b0) (σc b))).flatten⟩,
        (process_single_page 0 [] b0).2.1 ++
          ((batchList bs (List.range' 1 rest.length)).map
            (fun b => batchSegment (b0 :: rest) (runHeaders b0) mw (σd b) b)).flatten,
        cleanup (initFiles ++ (process_single_page 0 [] b0).2.2 ++
          ((batchList bs (List.range' 1 rest.length)).map
            (fun b => batchFiles (b0 :: rest) (runHeaders b0) (σd b))).flatten)⟩ := by
  have hbs' : ¬ (bs = 0) := by omega
  have hne : ∀ b ∈ batchList bs (List.range' 1 rest.length), b ≠ [] :=
    fun b hb => mem_batchList_ne_nil hbs hb
  have hitems : (process_single_page 0 [] b0).1.items = pageItemsOf 0 b0 :=
    psp_items 0 [] b0
  simp only [process_pdf_with_headers, if_neg hbs',
    runBatches_eq (b0 :: rest) _ hmw σd σc _ hne, hitems]
  rfl

/-! Membership and permutation lemmas about traces and collections. -/

theorem rateWait_not_mem_psp {idx : Nat} {hs : List String} {b : PageBehavior} :
    Event.rateWait ∉ (process_single_page idx hs b).2.1 := by
  intro he
  by_cases h0 : idx = 0
  · subst h0
    rcases mem_psp_events_zero he with h | h <;> exact Event.noConfusion h
  · exact Event.noConfusion (mem_psp_events_pos h0 he)

theorem mem_runBatches_events (pages : List PageBehavior) (headers : List String)
    (mw : Nat) (σd σc : List Nat → List Nat) :
    ∀ (bl : List (List Nat)) (e : Event),
      e ∈ (runBatches pages headers mw σd σc bl).2.1 →
        (∃ w, e = Event.batchBarrier w) ∨
          ∃ i, e ∈ (process_single_page i headers (behOf pages i)).2.1 := by
  intro bl
  induction bl with
  | nil => intro e he; simp [runBatches] at he
  | cons b rest ih =>
    intro e he
    rw [runBatches] at he
    by_cases hmin : min mw b.length = 0
    · rw [if_pos hmin] at he
      simp at he
    · rw [if_neg hmin] at he
      rcases List.mem_append.mp he with h | h
      · rcases List.mem_cons.mp h with h | h
        · exact Or.inl ⟨min mw b.length, h⟩
        · rw [List.mem_flatten] at h
          rcases h with ⟨ev, hev, hmem⟩
          rw [List.mem_map] at hev
          rcases hev with ⟨i, _, rfl⟩
          exact Or.inr ⟨i, hmem⟩
      · exact ih e h

theorem mem_runBatches_files (pages : List PageBehavior) (headers : List String)
    (mw : Nat) (σd σc : List Nat → List Nat) :
    ∀ (bl : List (List Nat)) (f : String),
      f ∈ (runBatches pages headers mw σd σc bl).2.2.1 → ∃ i, f = imagePath i := by
  intro bl
  induction bl with
  | nil => intro f hf; simp [runBatches] at hf
  | cons b rest ih =>
    intro f hf
    rw [runBatches] at hf
    by_cases hmin : min mw b.length = 0
    · rw [if_pos hmin] at hf
      simp at hf
    · rw [if_neg hmin] at hf
      rcases List.mem_append.mp hf with h | h
      · simp only [batchFiles, List.mem_flatten, List.mem_map] at h
        rcases h with ⟨fl, ⟨i, _, rfl⟩, hfl⟩
        exact ⟨i, mem_psp_files hfl⟩
      · exact ih f h

theorem mem_flatten_segments {pages : List PageBehavior} {headers : List String}
    {mw bs N : Nat} {σd : List Nat → List Nat} (hσd : ∀ l, (σd l).Perm l)
    {e : Event}
    (he : e ∈ ((batchList bs (List.range' 1 N)).map
      (fun b => batchSegment pages headers mw (σd b) b)).flatten) :
    (∃ w, e = Event.batchBarrier w) ∨
      ∃ i, 1 ≤ i ∧
        e ∈ (process_single_page i headers (behOf pages i)).2.1 := by
  rw [List.mem_flatten] at he
  rcases he with ⟨seg, hseg, hmem⟩
  rw [List.mem_map] at hseg
  rcases hseg with ⟨b, hb, rfl⟩
  rcases List.mem_cons.mp hmem with h | h
  · exact Or.inl ⟨min mw b.length, h⟩
  · rw [List.mem_flatten] at h
    rcases h with ⟨ev, hev, hmem'⟩
    rw [List.mem_map] at hev
    rcases hev with ⟨i, hi, rfl⟩
    have hib : i ∈ b := ((hσd b).mem_iff).mp hi
    have hir : i ∈ List.range' 1 N := mem_of_mem_batchList hb hib
    rw [List.mem_range'_1] at hir
    exact Or.inr ⟨i, hir.1, hmem'⟩

theorem flatten_map_flatten {α β : Type} (f : α → List β) :
    ∀ ll : List (List α),
      (ll.map (fun l => (l.map f).flatten)).flatten = (ll.flatten.map f).flatten := by
  intro ll
  induction ll with
  | nil => simp
  | cons l rest ih => simp [ih]

theorem flatten_map_filter {β : Type} (f : Nat → List β) (p : Nat → Bool) :
    ∀ l : List Nat, (∀ i ∈ l, p i = false → f i = []) →
      (l.map f).flatten = ((l.filter p).map f).flatten := by
  intro l
  induction l with
  | nil => simp
  | cons a l ih =>
    intro h
    by_cases hp : p a = true
    · rw [List.filter_cons_of_pos hp]
      simp only [List.map_cons, List.flatten_cons]
      rw [ih (fun i hi hpi => h i (List.mem_cons_of_mem _ hi) hpi)]
    · have hpa : p a = false := by simpa using hp
      rw [List.filter_cons_of_neg (by simp [hpa])]
      simp only [List.map_cons, List.flatten_cons]
      rw [h a (List.mem_cons_self ..) hpa, List.nil_append]
      exact ih (fun i hi hpi => h i (List.mem_cons_of_mem _ hi) hpi)

theorem flatten_batchItems_perm (pages : List PageBehavior)
    (headers : List String) {σc σc' : List Nat → List Nat}
    (hσc : ∀ l, (σc l).Perm l) (hσc' : ∀ l, (σc' l).Perm l) :
    ∀ bl : List (List Nat),
      ((bl.map (fun b => batchItems pages headers (σc b))).flatten).Perm
        ((bl.map (fun b => batchItems pages headers (σc' b))).flatten) := by
  intro bl
  induction bl with
  | nil => simp
  | cons b rest ih =>
    simp only [List.map_cons, List.flatten_cons]
    refine List.Perm.append ?_ ih
    have h1 := ((hσc b).map
      (fun i => (process_single_page i headers (behOf pages i)).1.items)).flatten
    have h2 := ((hσc' b).map
      (fun i => (process_single_page i headers (behOf pages i)).1.items)).flatten
    exact (h1.trans h2.symm :)

theorem cleanup_run (init a b : List String) (ha : cleanup a = [])
    (hb : cleanup b = []) :
    cleanup (init ++ a ++ b) = init.filter (fun f => !(isJpg f)) := by
  rw [cleanup_append, cleanup_append, ha, hb]
  simp [cleanup]

theorem mem_run_events {raster : Except Unit (List PageBehavior)}
    {mw bs : Nat} {σd σc : List Nat → List Nat} {initFiles : List String}
    {e : Event}
    (he : e ∈ (process_pdf_with_headers raster mw bs σd σc initFiles).events) :
    (∃ w, e = Event.batchBarrier w) ∨
      ∃ i hs b, e ∈ (process_single_page i hs b).2.1 := by
  rcases raster with _ | pages
  · simp [process_pdf_with_headers] at he
  · cases pages with
    | nil => simp [process_pdf_with_headers] at he
    | cons b0 rest =>
      simp only [process_pdf_with_headers] at he
      by_cases hbs : bs = 0
      · rw [if_pos hbs] at he
        exact Or.inr ⟨0, [], b0, he⟩
      · rw [if_neg hbs] at he
        split at he <;>
        · rcases List.mem_append.mp he with h | h
          · exact Or.inr ⟨0, [], b0, h⟩
          · rcases mem_runBatches_events _ _ _ _ _ _ e h with ⟨w, rfl⟩ | ⟨i, hmem⟩
            · exact Or.inl ⟨w, rfl⟩
            · exact Or.inr ⟨i, _, _, hmem⟩

/-! Claim theorems. -/

/-- Claim C7 counterexample: on a rasterization that yields zero pages, the
pipeline does not return normally with an empty result: the run ends with an
escaped IndexError (the source indexes images[0] with no emptiness check). -/
theorem claim7_counterexample :
    (process_pdf_with_headers (Except.ok []) 3 2 id id []).result
      = Except.error PipeErr.indexError := by
  rfl

/-- Claim C7 (amended): if rasterization yields zero pages, the pipeline does
not return an empty result: accessing images[0] raises an uncaught
IndexError.  No API call is made, and the finally-block cleanup still runs
over the temp directory before the exception escapes. -/
theorem claim7_zero_pages (mw bs : Nat) (σd σc : List Nat → List Nat)
    (initFiles : List String) :
    (process_pdf_with_headers (Except.ok []) mw bs σd σc initFiles).result
        = Except.error PipeErr.indexError ∧
      (process_pdf_with_headers (Except.ok []) mw bs σd σc initFiles).events
        = [] ∧
      (process_pdf_with_headers (Except.ok []) mw bs σd σc initFiles).files
        = cleanup initFiles :=
  ⟨rfl, rfl, rfl⟩

/-- Claim C8: whenever rasterization succeeds, on every exit path of the
pipeline (normal return, or an exception escaping during page processing)
the final cleanup pass deletes every file matching *.jpg: the temp directory
ends up holding exactly the initial non-.jpg files, so none of the run's
page_{i+1}.jpg transport files survive. -/
theorem claim8_temp_cleanup (pages : List PageBehavior) (mw bs : Nat)
    (σd σc : List Nat → List Nat) (initFiles : List String) :
    (process_pdf_with_headers (Except.ok pages) mw bs σd σc initFiles).files
      = initFiles.filter (fun f => !(isJpg f)) := by
  cases pages with
  | nil => rfl
  | cons b0 rest =>
    have hfp : cleanup (process_single_page 0 [] b0).2.2 = [] :=
      cleanup_jpg_nil (fun f hf => by rw [mem_psp_files hf]; exact isJpg_imagePath 0)
    have hrb : ∀ headers, cleanup (runBatches (b0 :: rest) headers mw σd σc
        (batchList bs (List.range' 1 rest.length))).2.2.1 = [] := by
      intro headers
      refine cleanup_jpg_nil (fun f hf => ?_)
      rcases mem_runBatches_files _ _ _ _ _ _ f hf with ⟨i, rfl⟩
      exact isJpg_imagePath i
    simp only [process_pdf_with_headers]
    by_cases hbs : bs = 0
    · rw [if_pos hbs]
      show cleanup (initFiles ++ (process_single_page 0 [] b0).2.2) = _
      rw [cleanup_append, hfp, List.append_nil]
      rfl
    · rw [if_neg hbs]
      split <;> exact cleanup_run _ _ _ hfp (hrb _)

/-- Claim C6 counterexample: the claim that every LLM extraction call passes
through the rate limiter is false for the PDF page path: this concrete
single-page run performs an item-extraction call, yet its trace contains no
rate-limiter wait at all. -/
theorem claim6_counterexample :
    Event.extractCall 0 none
        ∈ (process_pdf_with_headers (Except.ok [defaultBehavior]) 3 2 id id
            []).events ∧
      ((process_pdf_with_headers (Except.ok [defaultBehavior]) 3 2 id id
          []).events).count Event.rateWait = 0 := by
  constructor
  · decide
  · decide

/-- Claim C6 (amended): only the Excel chunk path is rate limited:
process_chunk performs exactly one rate-limiter wait, immediately before its
generate_content call, while the PDF pipeline's trace (header and item
extraction calls included) contains no rate-limiter wait on any input. -/
theorem claim6_rate_limit_paths {α : Type} (i : Nat)
    (apiResult : Except Unit (Option (List α)))
    (raster : Except Unit (List PageBehavior)) (mw bs : Nat)
    (σd σc : List Nat → List Nat) (initFiles : List String) :
    (process_chunk i apiResult).2 = [Event.rateWait, Event.chunkCall i] ∧
      ((process_pdf_with_headers raster mw bs σd σc initFiles).events).count
        Event.rateWait = 0 := by
  constructor
  · cases apiResult <;> rfl
  · rw [List.count_eq_zero]
    intro he
    rcases mem_run_events he with ⟨w, hw⟩ | ⟨j, hs, b, hmem⟩
    · exact Event.noConfusion hw
    · exact rateWait_not_mem_psp hmem

/-- Claim C10: for every dataframe (list of rows) and every chunk_size > 0,
prepare_chunks returns exactly ceil(len/chunk_size) chunks (the least number
of size-chunk_size chunks covering all rows); chunk i carries start index
i*chunk_size and end index min((i+1)*chunk_size, len) and holds exactly the
rows of that half-open interval; the chunks concatenate, in order, back to
the input dataframe, so every row belongs to exactly one chunk. -/
theorem claim10_prepare_chunks {α : Type} (df : List α) (cs : Nat)
    (hcs : 0 < cs) :
    (prepare_chunks df cs).length = (df.length + cs - 1) / cs ∧
      df.length ≤ ((df.length + cs - 1) / cs) * cs ∧
      (∀ m, df.length ≤ m * cs → (df.length + cs - 1) / cs ≤ m) ∧
      (∀ k hk, (prepare_chunks df cs).get ⟨k, hk⟩
        = (k, (df.drop (k * cs)).take cs, k * cs,
            min ((k + 1) * cs) df.length)) ∧
      ((prepare_chunks df cs).map (fun c => c.2.1)).flatten = df := by
  refine ⟨by simp [prepare_chunks], ceil_mul_ge hcs,
    fun m hm => (ceil_le_iff hcs).mpr hm, ?_, ?_⟩
  · intro k hk
    simp only [prepare_chunks, List.get_eq_getElem, List.getElem_map,
      List.getElem_range]
    rw [take_min_chunk]
  · have hmap : (prepare_chunks df cs).map (fun c => c.2.1)
        = (List.range ((df.length + cs - 1) / cs)).map
            (fun k => (df.drop (k * cs)).take cs) := by
      simp only [prepare_chunks, List.map_map]
      refine List.map_congr_left ?_
      intro k _
      simp only [Function.comp_apply]
      rw [take_min_chunk]
    rw [hmap, flatten_chunks df hcs]

/-- Claim C10 witness: the general theorem instantiated on a concrete
5-row dataframe with chunk size 2. -/
theorem claim10_witness :
    (prepare_chunks [10, 20, 30, 40, 50] 2).length
        = ([10, 20, 30, 40, 50].length + 2 - 1) / 2 ∧
      [10, 20, 30, 40, 50].length
        ≤ (([10, 20, 30, 40, 50].length + 2 - 1) / 2) * 2 ∧
      (∀ m, [10, 20, 30, 40, 50].length ≤ m * 2 →
        ([10, 20, 30, 40, 50].length + 2 - 1) / 2 ≤ m) ∧
      (∀ k hk, (prepare_chunks [10, 20, 30, 40, 50] 2).get ⟨k, hk⟩
        = (k, ([10, 20, 30, 40, 50].drop (k * 2)).take 2, k * 2,
            min ((k + 1) * 2) [10, 20, 30, 40, 50].length)) ∧
      ((prepare_chunks [10, 20, 30, 40, 50] 2).map (fun c => c.2.1)).flatten
        = [10, 20, 30, 40, 50] :=
  claim10_prepare_chunks [10, 20, 30, 40, 50] 2 (by decide)

/-- Claim C5: on a call to the rate limiter, every recorded timestamp at
least 60 seconds old is discarded from the list; when at least
max_calls_per_minute timestamps remain inside the rolling window, the call
blocks for exactly 60 - (now - oldest_call_in_window) seconds — a positive
amount — after which the oldest recorded call lies outside the 60-second
window; the new state is the surviving window plus the wake-up timestamp. -/
theorem claim5_rate_limiter (maxCalls : Nat) (calls : List ℚ) (now : ℚ)
    (hsorted : calls.Sorted (· ≤ ·)) (hmax : 0 < maxCalls)
    (hfull : maxCalls ≤ (calls.filter (fun u => decide (now - u < 60))).length) :
    ∃ oldest tail,
      calls.filter (fun u => decide (now - u < 60)) = oldest :: tail ∧
      (∀ t ∈ calls, 60 ≤ now - t →
        t ∉ calls.filter (fun u => decide (now - u < 60))) ∧
      (∀ t ∈ calls.filter (fun u => decide (now - u < 60)), oldest ≤ t) ∧
      0 < 60 - (now - oldest) ∧
      wait_if_needed maxCalls calls now
        = Except.ok (calls.filter (fun u => decide (now - u < 60))
            ++ [now + (60 - (now - oldest))], 60 - (now - oldest)) ∧
      ¬ (now + (60 - (now - oldest)) - oldest < 60) := by
  obtain ⟨oldest, tail, hwlist⟩ :
      ∃ o t, calls.filter (fun u => decide (now - u < 60)) = o :: t := by
    cases hh : calls.filter (fun u => decide (now - u < 60)) with
    | nil => rw [hh] at hfull; simp at hfull; omega
    | cons o t => exact ⟨o, t, rfl⟩
  have hom : oldest ∈ calls.filter (fun u => decide (now - u < 60)) := by
    rw [hwlist]; exact List.mem_cons_self ..
  have homlt : now - oldest < 60 :=
    of_decide_eq_true (List.mem_filter.mp hom).2
  have hpos : 0 < 60 - (now - oldest) := by linarith
  have hsf := hsorted.filter (fun u => decide (now - u < 60))
  rw [hwlist, List.sorted_cons] at hsf
  refine ⟨oldest, tail, hwlist, ?_, ?_, hpos, ?_, ?_⟩
  · intro t _ hold hmem
    have := of_decide_eq_true (List.mem_filter.mp hmem).2
    linarith
  · intro t ht
    rw [hwlist, List.mem_cons] at ht
    rcases ht with rfl | ht
    · exact le_refl t
    · exact hsf.1 t ht
  · have hfull' : maxCalls ≤ (oldest :: tail).length := by rw [← hwlist]; exact hfull
    unfold wait_if_needed
    simp only [hwlist, if_pos hfull', if_pos hpos]
  · intro hlt
    have : now + (60 - (now - oldest)) - oldest = 60 := by ring
    rw [this] at hlt
    exact absurd hlt (lt_irrefl 60)

/-- Concrete scenario for claim C5: fifteen calls at seconds 0..14 with a
ceiling of 15, and a 16th call arriving at second 30. -/
def demoCalls : List ℚ :=
  [0, 1, 2, 3, 4, 5, 6, 7, 8, 9, 10, 11, 12, 13, 14]

/-- Claim C5 witness: with max_calls_per_minute = 15 and 15 calls recorded
within the last 60 seconds, the 16th call (at t = 30) blocks until the
oldest recorded call falls outside the 60-second window. -/
theorem claim5_witness :
    ∃ oldest tail,
      demoCalls.filter (fun u => decide ((30 : ℚ) - u < 60)) = oldest :: tail ∧
      (∀ t ∈ demoCalls, 60 ≤ (30 : ℚ) - t →
        t ∉ demoCalls.filter (fun u => decide ((30 : ℚ) - u < 60))) ∧
      (∀ t ∈ demoCalls.filter (fun u => decide ((30 : ℚ) - u < 60)),
        oldest ≤ t) ∧
      0 < 60 - ((30 : ℚ) - oldest) ∧
      wait_if_needed 15 demoCalls 30
        = Except.ok (demoCalls.filter (fun u => decide ((30 : ℚ) - u < 60))
            ++ [30 + (60 - ((30 : ℚ) - oldest))], 60 - ((30 : ℚ) - oldest)) ∧
      ¬ ((30 : ℚ) + (60 - ((30 : ℚ) - oldest)) - oldest < 60) :=
  claim5_rate_limiter 15 demoCalls 30 (by decide) (by decide)
    (by norm_num [demoCalls, List.filter])

/-- Claim C1: for a document with at least two pages, page 0's processing —
its PageResult included — fully precedes, in the trace, the dispatch of any
extraction call for a page with index > 0; the header-extraction call occurs
only inside page 0's segment and never for a later page, and it occurs
exactly once per run whenever page 0's image save does not itself raise
(zero times when it does — the count is never more than one). -/
theorem claim1_header_phase_first (b0 : PageBehavior)
    (rest : List PageBehavior) (mw bs : Nat) (σd σc : List Nat → List Nat)
    (initFiles : List String) (hmw : 0 < mw) (hbs : 0 < bs)
    (hσd : ∀ l, (σd l).Perm l) (hN : rest ≠ []) :
    ∃ evRest,
      (process_pdf_with_headers (Except.ok (b0 :: rest)) mw bs σd σc
          initFiles).events
        = (process_single_page 0 [] b0).2.1 ++ evRest ∧
      (∀ ctx, Event.extractCall 0 ctx ∉ evRest) ∧
      Event.headerCall ∉ evRest ∧
      (∀ i ctx, Event.extractCall i ctx
          ∈ (process_single_page 0 [] b0).2.1 → i = 0) ∧
      ((process_pdf_with_headers (Except.ok (b0 :: rest)) mw bs σd σc
          initFiles).events).count Event.headerCall
        = if b0.saveErr then 0 else 1 := by
  have hev : (process_pdf_with_headers (Except.ok (b0 :: rest)) mw bs σd σc
      initFiles).events
      = (process_single_page 0 [] b0).2.1 ++
        ((batchList bs (List.range' 1 rest.length)).map
          (fun b => batchSegment (b0 :: rest) (runHeaders b0) mw (σd b) b)).flatten := by
    rw [run_ok b0 rest hmw hbs σd σc initFiles]
  refine ⟨_, hev, ?_, ?_, ?_, ?_⟩
  · intro ctx hmem
    rcases mem_flatten_segments hσd hmem with ⟨w, hw⟩ | ⟨i, hi, hmem'⟩
    · exact Event.noConfusion hw
    · have h := mem_psp_events_pos (show i ≠ 0 by omega) hmem'
      injection h with h1 h2
      omega
  · intro hmem
    rcases mem_flatten_segments hσd hmem with ⟨w, hw⟩ | ⟨i, hi, hmem'⟩
    · exact Event.noConfusion hw
    · exact Event.noConfusion (mem_psp_events_pos (show i ≠ 0 by omega) hmem')
  · intro i ctx hmem
    rcases mem_psp_events_zero hmem with h | h
    · exact Event.noConfusion h
    · injection h with h1 h2 <;> exact h1
  · rw [hev, List.count_append, psp_count_headerCall]
    have hzero : (((batchList bs (List.range' 1 rest.length)).map
        (fun b => batchSegment (b0 :: rest) (runHeaders b0) mw (σd b) b)).flatten).count
          Event.headerCall = 0 := by
      rw [List.count_eq_zero]
      intro hmem
      rcases mem_flatten_segments hσd hmem with ⟨w, hw⟩ | ⟨i, hi, hmem'⟩
      · exact Event.noConfusion hw
      · exact Event.noConfusion (mem_psp_events_pos (show i ≠ 0 by omega) hmem')
    rw [hzero]
    cases b0.saveErr <;> simp

/-- Claim C2: every extraction prompt for a page with index > 0 carries
exactly the header list produced by page 0's PageResult as its context —
the same single run-wide value that is also returned as the final
InvoiceData.headers; it equals the parsed headers when page 0 succeeded and
is empty whenever page 0 failed to produce headers. -/
theorem claim2_header_propagation (b0 : PageBehavior)
    (rest : List PageBehavior) (mw bs : Nat) (σd σc : List Nat → List Nat)
    (initFiles : List String) (hmw : 0 < mw) (hbs : 0 < bs)
    (hσd : ∀ l, (σd l).Perm l) :
    (∀ i ctx, Event.extractCall i ctx
        ∈ (process_pdf_with_headers (Except.ok (b0 :: rest)) mw bs σd σc
            initFiles).events →
      0 < i → ctx = some (runHeaders b0)) ∧
    (∀ d, (process_pdf_with_headers (Except.ok (b0 :: rest)) mw bs σd σc
        initFiles).result = Except.ok d → d.headers = runHeaders b0) ∧
    (∀ hs, b0.saveErr = false → b0.header = Except.ok (some hs) →
      runHeaders b0 = hs) ∧
    (b0.saveErr = true ∨ b0.header = Except.error () ∨
        b0.header = Except.ok none →
      runHeaders b0 = []) := by
  have hev : (process_pdf_with_headers (Except.ok (b0 :: rest)) mw bs σd σc
      initFiles).events
      = (process_single_page 0 [] b0).2.1 ++
        ((batchList bs (List.range' 1 rest.length)).map
          (fun b => batchSegment (b0 :: rest) (runHeaders b0) mw (σd b) b)).flatten := by
    rw [run_ok b0 rest hmw hbs σd σc initFiles]
  refine ⟨?_, ?_, fun hs h1 h2 => runHeaders_of_ok b0 hs h1 h2,
    fun h => runHeaders_of_failed b0 h⟩
  · intro i ctx hmem hipos
    rw [hev] at hmem
    rcases List.mem_append.mp hmem with h | h
    · rcases mem_psp_events_zero h with h' | h'
      · exact Event.noConfusion h'
      · injection h' with h1 h2 <;> omega
    · rcases mem_flatten_segments hσd h with ⟨w, hw⟩ | ⟨j, hj, hmem'⟩
      · exact Event.noConfusion hw
      · have h' := mem_psp_events_pos (show j ≠ 0 by omega) hmem'
        injection h' with h1 h2 <;> exact h2
  · intro d hd
    rw [run_ok b0 rest hmw hbs σd σc initFiles] at hd
    injection hd with h
    rw [← h]

/-- Claim C3: with positive batch size and worker count, a per-page
extraction failure (exception or unparseable output) never aborts the run:
the pipeline returns normally, every failed page contributes zero items,
and the final InvoiceData.items is exactly the concatenation, in the run's
collection order, of the item lists of the successful pages alone. -/
theorem claim3_failure_isolation (b0 : PageBehavior)
    (rest : List PageBehavior) (mw bs : Nat) (σd σc : List Nat → List Nat)
    (initFiles : List String) (hmw : 0 < mw) (hbs : 0 < bs) :
    ∃ d, (process_pdf_with_headers (Except.ok (b0 :: rest)) mw bs σd σc
        initFiles).result = Except.ok d ∧
      d.items
        = (((0 :: ((batchList bs (List.range' 1 rest.length)).map σc).flatten).filter
              (fun i => !(pageFailed i (behOf (b0 :: rest) i)))).map
            (fun i => pageItemsOf i (behOf (b0 :: rest) i))).flatten ∧
      (∀ i b, pageFailed i b = true → pageItemsOf i b = []) := by
  have hitems :
      pageItemsOf 0 b0 ++ ((batchList bs (List.range' 1 rest.length)).map
          (fun b => batchItems (b0 :: rest) (runHeaders b0) (σc b))).flatten
      = (((0 :: ((batchList bs (List.range' 1 rest.length)).map σc).flatten).filter
            (fun i => !(pageFailed i (behOf (b0 :: rest) i)))).map
          (fun i => pageItemsOf i (behOf (b0 :: rest) i))).flatten := by
    have hfun : (fun i => (process_single_page i (runHeaders b0)
          (behOf (b0 :: rest) i)).1.items)
        = (fun i => pageItemsOf i (behOf (b0 :: rest) i)) :=
      funext (fun i => psp_items i (runHeaders b0) (behOf (b0 :: rest) i))
    have h1 : ((batchList bs (List.range' 1 rest.length)).map
          (fun b => batchItems (b0 :: rest) (runHeaders b0) (σc b))).flatten
        = ((((batchList bs (List.range' 1 rest.length)).map σc).flatten).map
            (fun i => pageItemsOf i (behOf (b0 :: rest) i))).flatten := by
      simp only [batchItems, hfun]
      rw [← flatten_map_flatten, List.map_map]
      rfl
    rw [h1]
    have h0 : pageItemsOf 0 b0
        = pageItemsOf 0 (behOf (b0 :: rest) 0) := rfl
    rw [h0,
      show pageItemsOf 0 (behOf (b0 :: rest) 0) ++
          ((((batchList bs (List.range' 1 rest.length)).map σc).flatten).map
            (fun i => pageItemsOf i (behOf (b0 :: rest) i))).flatten
        = (((0 :: ((batchList bs (List.range' 1 rest.length)).map σc).flatten)).map
            (fun i => pageItemsOf i (behOf (b0 :: rest) i))).flatten from by
        simp]
    exact flatten_map_filter _ _ _ (fun i _ hp => by
      refine pageItemsOf_of_failed i _ ?_
      revert hp
      cases pageFailed i (behOf (b0 :: rest) i) <;> simp)
  refine ⟨⟨runHeaders b0,
      pageItemsOf 0 b0 ++ ((batchList bs (List.range' 1 rest.length)).map
        (fun b => batchItems (b0 :: rest) (runHeaders b0) (σc b))).flatten⟩,
    ?_, hitems, fun i b h => pageItemsOf_of_failed i b h⟩
  rw [run_ok b0 rest hmw hbs σd σc initFiles]

/-- Claim C4: the remaining pages 1..N are partitioned, in index order, into
consecutive batches of size batch_size with only the last possibly smaller;
the run's trace is page 0's calls followed by the batch segments laid out in
batch order — so every event of batch k precedes every event of batch k+1 —
each segment opens with its executor barrier carrying worker count
min(max_workers, len(batch)), and every extraction call inside a segment is
for a page of that segment's batch. -/
theorem claim4_batch_schedule (b0 : PageBehavior)
    (rest : List PageBehavior) (mw bs : Nat) (σd σc : List Nat → List Nat)
    (initFiles : List String) (hmw : 0 < mw) (hbs : 0 < bs)
    (hσd : ∀ l, (σd l).Perm l) :
    ((batchList bs (List.range' 1 rest.length)).length
        = (rest.length + bs - 1) / bs) ∧
    (∀ k hk, (batchList bs (List.range' 1 rest.length)).get ⟨k, hk⟩
        = List.range' (1 + k * bs) (min bs (rest.length - k * bs))) ∧
    ((process_pdf_with_headers (Except.ok (b0 :: rest)) mw bs σd σc
        initFiles).events
      = (process_single_page 0 [] b0).2.1 ++
        ((batchList bs (List.range' 1 rest.length)).map
          (fun b => batchSegment (b0 :: rest) (runHeaders b0) mw (σd b) b)).flatten) ∧
    (∀ b ∈ batchList bs (List.range' 1 rest.length),
      (batchSegment (b0 :: rest) (runHeaders b0) mw (σd b) b).head?
          = some (Event.batchBarrier (min mw b.length)) ∧
      (∀ i ctx, Event.extractCall i ctx
          ∈ batchSegment (b0 :: rest) (runHeaders b0) mw (σd b) b → i ∈ b)) := by
  refine ⟨by rw [batchList_length, List.length_range'], ?_, ?_, ?_⟩
  · intro k hk
    simp only [batchList, List.get_eq_getElem, List.getElem_map,
      List.getElem_range]
    rw [range'_drop, range'_take]
  · rw [run_ok b0 rest hmw hbs σd σc initFiles]
  · intro b hb
    refine ⟨rfl, ?_⟩
    intro i ctx hmem
    rcases List.mem_cons.mp hmem with h | h
    · exact Event.noConfusion h
    · rw [List.mem_flatten] at h
      rcases h with ⟨ev, hev, hmem'⟩
      rw [List.mem_map] at hev
      rcases hev with ⟨j, hj, rfl⟩
      have hjb : j ∈ b := ((hσd b).mem_iff).mp hj
      have hjr : j ∈ List.range' 1 rest.length := mem_of_mem_batchList hb hjb
      rw [List.mem_range'_1] at hjr
      have h' := mem_psp_events_pos (show j ≠ 0 by omega) hmem'
      injection h' with h1 h2
      rw [h1]
      exact hjb

/-- Claim C9: two runs of the pipeline over the same rasterized pages with
the same deterministic per-page client behaviours — under any two batch
schedules and any two initial temp-directory states — return normally with
the identical header list and permutationally equal item lists; each run's
items are built by appending whole per-page item lists, so a page's items
stay contiguous and in page-internal order within either run. -/
theorem claim9_two_run_agreement (b0 : PageBehavior)
    (rest : List PageBehavior) (mw bs : Nat)
    (σd σc σd' σc' : List Nat → List Nat) (f1 f2 : List String)
    (hmw : 0 < mw) (hbs : 0 < bs)
    (hσc : ∀ l, (σc l).Perm l) (hσc' : ∀ l, (σc' l).Perm l) :
    ∃ d d',
      (process_pdf_with_headers (Except.ok (b0 :: rest)) mw bs σd σc
          f1).result = Except.ok d ∧
      (process_pdf_with_headers (Except.ok (b0 :: rest)) mw bs σd' σc'
          f2).result = Except.ok d' ∧
      d.headers = d'.headers ∧
      d.items = pageItemsOf 0 b0 ++
        ((batchList bs (List.range' 1 rest.length)).map
          (fun b => batchItems (b0 :: rest) (runHeaders b0) (σc b))).flatten ∧
      d'.items = pageItemsOf 0 b0 ++
        ((batchList bs (List.range' 1 rest.length)).map
          (fun b => batchItems (b0 :: rest) (runHeaders b0) (σc' b))).flatten ∧
      d.items.Perm d'.items := by
  refine ⟨⟨runHeaders b0,
      pageItemsOf 0 b0 ++ ((batchList bs (List.range' 1 rest.length)).map
        (fun b => batchItems (b0 :: rest) (runHeaders b0) (σc b))).flatten⟩,
    ⟨runHeaders b0,
      pageItemsOf 0 b0 ++ ((batchList bs (List.range' 1 rest.length)).map
        (fun b => batchItems (b0 :: rest) (runHeaders b0) (σc' b))).flatten⟩,
    ?_, ?_, rfl, rfl, rfl, ?_⟩
  · rw [run_ok b0 rest hmw hbs σd σc f1]
  · rw [run_ok b0 rest hmw hbs σd' σc' f2]
  · exact List.Perm.append_left _
      (flatten_batchItems_perm (b0 :: rest) (runHeaders b0) hσc hσc' _)

/-- Demonstration line item used by the pipeline witnesses. -/
def demoItem : InvoiceItem :=
  ⟨"Paracetamol", "B123", "01/27", "45.00", 10⟩

/-- Demonstration page behaviour: header and item extraction both succeed. -/
def demoPage : PageBehavior :=
  ⟨false, Except.ok (some ["Name", "Batch", "Expiry", "MRP", "Qty"]), false,
    Except.ok (some [demoItem])⟩

/-- Claim C1 witness: the ordering theorem instantiated on a concrete
three-page document with max_workers = 3 and batch_size = 2. -/
theorem claim1_witness :
    ∃ evRest,
      (process_pdf_with_headers (Except.ok (demoPage :: [demoPage, demoPage]))
          3 2 id id []).events
        = (process_single_page 0 [] demoPage).2.1 ++ evRest ∧
      (∀ ctx, Event.extractCall 0 ctx ∉ evRest) ∧
      Event.headerCall ∉ evRest ∧
      (∀ i ctx, Event.extractCall i ctx
          ∈ (process_single_page 0 [] demoPage).2.1 → i = 0) ∧
      ((process_pdf_with_headers (Except.ok (demoPage :: [demoPage, demoPage]))
          3 2 id id []).events).count Event.headerCall
        = if demoPage.saveErr then 0 else 1 :=
  claim1_header_phase_first demoPage [demoPage, demoPage] 3 2 id id []
    (by decide) (by decide) (fun l => List.Perm.refl l) (by decide)

/-- Claim C2 witness: the header-propagation theorem instantiated on a
concrete three-page document. -/
theorem claim2_witness :
    (∀ i ctx, Event.extractCall i ctx
        ∈ (process_pdf_with_headers (Except.ok (demoPage :: [demoPage, demoPage]))
            3 2 id id []).events →
      0 < i → ctx = some (runHeaders demoPage)) ∧
    (∀ d, (process_pdf_with_headers (Except.ok (demoPage :: [demoPage, demoPage]))
        3 2 id id []).result = Except.ok d → d.headers = runHeaders demoPage) ∧
    (∀ hs, demoPage.saveErr = false → demoPage.header = Except.ok (some hs) →
      runHeaders demoPage = hs) ∧
    (demoPage.saveErr = true ∨ demoPage.header = Except.error () ∨
        demoPage.header = Except.ok none →
      runHeaders demoPage = []) :=
  claim2_header_propagation demoPage [demoPage, demoPage] 3 2 id id []
    (by decide) (by decide) (fun l => List.Perm.refl l)

/-- Claim C3 witness: the failure-isolation theorem instantiated on a
concrete three-page document. -/
theorem claim3_witness :
    ∃ d, (process_pdf_with_headers (Except.ok (demoPage :: [demoPage, demoPage]))
        3 2 id id []).result = Except.ok d ∧
      d.items
        = (((0 :: ((batchList 2 (List.range' 1 [demoPage, demoPage].length)).map
                id).flatten).filter
              (fun i => !(pageFailed i (behOf (demoPage :: [demoPage, demoPage]) i)))).map
            (fun i => pageItemsOf i (behOf (demoPage :: [demoPage, demoPage]) i))).flatten ∧
      (∀ i b, pageFailed i b = true → pageItemsOf i b = []) :=
  claim3_failure_isolation demoPage [demoPage, demoPage] 3 2 id id []
    (by decide) (by decide)

/-- Claim C4 witness: the batch-schedule theorem instantiated on a concrete
three-page document with batch_size = 2 and max_workers = 3. -/
theorem claim4_witness :
    ((batchList 2 (List.range' 1 [demoPage, demoPage].length)).length
        = ([demoPage, demoPage].length + 2 - 1) / 2) ∧
    (∀ k hk, (batchList 2 (List.range' 1 [demoPage, demoPage].length)).get ⟨k, hk⟩
        = List.range' (1 + k * 2) (min 2 ([demoPage, demoPage].length - k * 2))) ∧
    ((process_pdf_with_headers (Except.ok (demoPage :: [demoPage, demoPage]))
        3 2 id id []).events
      = (process_single_page 0 [] demoPage).2.1 ++
        ((batchList 2 (List.range' 1 [demoPage, demoPage].length)).map
          (fun b => batchSegment (demoPage :: [demoPage, demoPage])
            (runHeaders demoPage) 3 (id b) b)).flatten) ∧
    (∀ b ∈ batchList 2 (List.range' 1 [demoPage, demoPage].length),
      (batchSegment (demoPage :: [demoPage, demoPage]) (runHeaders demoPage)
          3 (id b) b).head?
          = some (Event.batchBarrier (min 3 b.length)) ∧
      (∀ i ctx, Event.extractCall i ctx
          ∈ batchSegment (demoPage :: [demoPage, demoPage])
            (runHeaders demoPage) 3 (id b) b → i ∈ b)) :=
  claim4_batch_schedule demoPage [demoPage, demoPage] 3 2 id id []
    (by decide) (by decide) (fun l => List.Perm.refl l)

/-- Claim C9 witness: the two-run agreement theorem instantiated on a
concrete three-page document, with differing initial temp directories. -/
theorem claim9_witness :
    ∃ d d',
      (process_pdf_with_headers (Except.ok (demoPage :: [demoPage, demoPage]))
          3 2 id id []).result = Except.ok d ∧
      (process_pdf_with_headers (Except.ok (demoPage :: [demoPage, demoPage]))
          3 2 id id ["old.jpg"]).result = Except.ok d' ∧
      d.headers = d'.headers ∧
      d.items = pageItemsOf 0 demoPage ++
        ((batchList 2 (List.range' 1 [demoPage, demoPage].length)).map
          (fun b => batchItems (demoPage :: [demoPage, demoPage])
            (runHeaders demoPage) (id b))).flatten ∧
      d'.items = pageItemsOf 0 demoPage ++
        ((batchList 2 (List.range' 1 [demoPage, demoPage].length)).map
          (fun b => batchItems (demoPage :: [demoPage, demoPage])
            (runHeaders demoPage) (id b))).flatten ∧
      d.items.Perm d'.items :=
  claim9_two_run_agreement demoPage [demoPage, demoPage] 3 2 id id id id
    [] ["old.jpg"] (by decide) (by decide)
    (fun l => List.Perm.refl l) (fun l => List.Perm.refl l)

end InvoiceProc
